import Mathlib

/-!
Verification of the pandemic daemon core: the plugin registry, the pub/sub
event bus with suffix-wildcard matching, the per-connection delivery
channels, and the connection lifecycle rules.

Shallow embedding of src/pandemic-daemon/src/event_bus.rs, daemon.rs and
handlers.rs. The Rust HashMaps are modelled as association lists
(first-occurrence lookup); the unbounded mpsc channel of a connection is
modelled as the list of events sent into it, in FIFO order. A ghost field
records every event handed to EventBus::publish, in order, so that theorems
can talk about which lifecycle events a code path emits.
-/

namespace Pandemic

/-- Lookup in an association list: value of the first entry with the key,
mirroring HashMap::get. -/
def mapGet {α : Type} : List (String × α) → String → Option α
  | [], _ => none
  | (k, v) :: rest, key => if k = key then some v else mapGet rest key

/-- Insert mirroring HashMap::insert: replace the value at the key if
present, otherwise add the entry. -/
def mapInsert {α : Type} : List (String × α) → String → α → List (String × α)
  | [], key, v => [(key, v)]
  | (k, w) :: rest, key, v =>
    if k = key then (key, v) :: rest else (k, w) :: mapInsert rest key v

/-- Removal mirroring HashMap::remove. -/
def mapRemove {α : Type} : List (String × α) → String → List (String × α)
  | [], _ => []
  | (k, w) :: rest, key =>
    if k = key then mapRemove rest key else (k, w) :: mapRemove rest key

/-- In-place update of the value at a key, mirroring HashMap::get_mut
followed by a mutation; no effect when the key is absent. -/
def mapAdjust {α : Type} : List (String × α) → String → (α → α) → List (String × α)
  | [], _, _ => []
  | (k, v) :: rest, key, f =>
    if k = key then (k, f v) :: rest else (k, v) :: mapAdjust rest key f

/-- Key membership, mirroring HashMap::contains_key. -/
def mapContains {α : Type} (m : List (String × α)) (key : String) : Bool :=
  (mapGet m key).isSome

/-- The keys of the association list have no duplicates; every map built by
the daemon out of HashMap operations satisfies this. -/
def keysNodup {α : Type} (m : List (String × α)) : Prop :=
  (m.map Prod.fst).Nodup

instance {α : Type} (m : List (String × α)) : Decidable (keysNodup m) :=
  decidable_of_iff ((m.map Prod.fst).Nodup) Iff.rfl

/-- JSON values, the model of serde_json::Value. -/
inductive Json where
  | null : Json
  | bool (b : Bool) : Json
  | num (n : Int) : Json
  | str (s : String) : Json
  | arr (elems : List Json) : Json
  | obj (fields : List (String × Json)) : Json

/-- PluginInfo from src/pandemic-protocol/src/lib.rs. Wall-clock timestamps
are modelled as natural numbers. -/
structure PluginInfo where
  name : String
  version : String
  description : Option String
  config : Option (List (String × String))
  registered_at : Option Nat
deriving DecidableEq

/-- Serialization of a plugin record, the model of json!(plugin). The
chrono wall-clock string rendering of registered_at is abstracted to the
numeric timestamp, which no claim inspects. -/
def PluginInfo.toJson (p : PluginInfo) : Json :=
  Json.obj
    [ ("name", Json.str p.name)
    , ("version", Json.str p.version)
    , ("description", match p.description with
        | some d => Json.str d
        | none => Json.null)
    , ("config", match p.config with
        | some c => Json.obj (c.map (fun kv => (kv.1, Json.str kv.2)))
        | none => Json.null)
    , ("registered_at", match p.registered_at with
        | some t => Json.num (Int.ofNat t)
        | none => Json.null) ]

/-- Modelled from the spec: the Event record (topic, source, data,
server-assigned timestamp). The snapshot of pandemic-protocol in src/
predates the daemon and does not contain the Event struct the daemon
imports; its shape is taken from section 3 of the specification and from
the field accesses in event_bus.rs. -/
structure Event where
  topic : String
  source : String
  data : Json
  timestamp : Option Nat

/-- Modelled from the spec: the full Request enum. The snapshot of
pandemic-protocol in src/ lists only the first four variants; Subscribe,
Unsubscribe, Publish and GetHealth are taken from section 6 of the
specification and from the match arms in handlers.rs that consume them. -/
inductive Request where
  | register (plugin : PluginInfo) : Request
  | deregister (name : String) : Request
  | listPlugins : Request
  | getPlugin (name : String) : Request
  | subscribe (topics : List String) : Request
  | unsubscribe (topics : List String) : Request
  | publish (topic : String) (data : Json) : Request
  | getHealth : Request

/-- Response from src/pandemic-protocol/src/lib.rs: Success carries
optional data, Error and NotFound carry a message. -/
inductive Response where
  | success (data : Option Json) : Response
  | error (message : String) : Response
  | notFound (message : String) : Response

/-- ConnectionContext from src/pandemic-daemon/src/daemon.rs: the optional
bound plugin name, and the outbound channel modelled by the list of events
sent into it. -/
structure ConnectionContext where
  plugin_name : Option String
  sentEvents : List Event

/-- EventBus from src/pandemic-daemon/src/event_bus.rs: the subscription
table plugin_name -> topic patterns. -/
structure EventBus where
  subscribers : List (String × List String)

/-- Whether a string ends with the character *; the model of the Rust
str::ends_with on a char. -/
def endsWithStar (s : String) : Bool :=
  s.data.getLast? = some '*'

/-- Remove every trailing * character; the model of the Rust
str::trim_end_matches on the char *. -/
def trimTrailingStars (s : String) : String :=
  String.mk ((s.data.reverse.dropWhile (fun c => c = '*')).reverse)

/-- Whether s starts with the characters of p; the model of the Rust
str::starts_with. -/
def strStartsWith (s p : String) : Bool :=
  List.isPrefixOf p.data s.data

/-- The pattern test inside EventBus::publish: a pattern ending in *
matches every topic starting with the pattern minus its trailing stars,
any other pattern matches only the identical topic. -/
def patternMatches (pattern topic : String) : Bool :=
  if endsWithStar pattern then
    strStartsWith topic (trimTrailingStars pattern)
  else
    topic = pattern

/-- EventBus::subscribe: set-assignment of the whole pattern list. -/
def EventBus.subscribe (bus : EventBus) (plugin_name : String)
    (topics : List String) : EventBus :=
  ⟨mapInsert bus.subscribers plugin_name topics⟩

/-- EventBus::unsubscribe: retain only the patterns not listed; no effect
when the plugin has no entry. -/
def EventBus.unsubscribe (bus : EventBus) (plugin_name : String)
    (topics : List String) : EventBus :=
  ⟨mapAdjust bus.subscribers plugin_name
    (fun current => current.filter (fun t => ¬ topics.contains t))⟩

/-- The inner loop of EventBus::publish: walk the connection table, append
the event to the channel of the first connection bound to the plugin name,
then stop. -/
def deliverFirst (e : Event) (plugin_name : String) :
    List (String × ConnectionContext) → List (String × ConnectionContext)
  | [] => []
  | (cid, ctx) :: rest =>
    match ctx.plugin_name with
    | some n =>
      if n = plugin_name then
        (cid, { ctx with sentEvents := ctx.sentEvents ++ [e] }) :: rest
      else
        (cid, ctx) :: deliverFirst e plugin_name rest
    | none => (cid, ctx) :: deliverFirst e plugin_name rest

/-- EventBus::publish: for every subscription entry whose pattern list has
a match for the topic, deliver the event to the first connection bound to
that subscriber name. -/
def EventBus.publish (bus : EventBus) (e : Event)
    (connections : List (String × ConnectionContext)) :
    List (String × ConnectionContext) :=
  bus.subscribers.foldl
    (fun conns entry =>
      if entry.2.any (fun pat => patternMatches pat e.topic) then
        deliverFirst e entry.1 conns
      else
        conns)
    connections

/-- EventBus::remove_plugin. -/
def EventBus.remove_plugin (bus : EventBus) (plugin_name : String) : EventBus :=
  ⟨mapRemove bus.subscribers plugin_name⟩

/-- The daemon state from src/pandemic-daemon/src/daemon.rs: registry,
event bus and connection table. eventLog is a ghost field recording every
event handed to EventBus::publish, in order; no code path reads it. -/
structure Daemon where
  plugins : List (String × PluginInfo)
  event_bus : EventBus
  connections : List (String × ConnectionContext)
  eventLog : List Event

/-- Run EventBus::publish on the current state and record the event in the
ghost log. Every publish call site of the source goes through this. -/
def Daemon.publishEvent (d : Daemon) (e : Event) : Daemon :=
  { d with
    connections := d.event_bus.publish e d.connections
    eventLog := d.eventLog ++ [e] }

/-- The plugin.registered lifecycle event built by the Register arm, after
the registered_at stamp. -/
def registeredEvent (p : PluginInfo) (now : Nat) : Event :=
  { topic := "plugin.registered"
    source := "pandemic"
    data := PluginInfo.toJson { p with registered_at := some now }
    timestamp := some now }

/-- The plugin.deregistered lifecycle event built by the Deregister arm. -/
def deregisteredEvent (name : String) (now : Nat) : Event :=
  { topic := "plugin.deregistered"
    source := "pandemic"
    data := Json.obj [("name", Json.str name)]
    timestamp := some now }

/-- The health snapshot serialized by the GetHealth arm; only the three
table sizes are in the embedding, the machine metrics (uptime, memory,
cpu, load average) live outside it. -/
def healthJson (d : Daemon) : Json :=
  Json.obj
    [ ("active_plugins", Json.num (Int.ofNat d.plugins.length))
    , ("total_connections", Json.num (Int.ofNat d.connections.length))
    , ("event_bus_subscribers", Json.num (Int.ofNat d.event_bus.subscribers.length)) ]

/-- Daemon::handle_request from src/pandemic-daemon/src/handlers.rs,
arm by arm in source order; now is the wall clock at dispatch. -/
def Daemon.handle_request (d : Daemon) (request : Request)
    (connection_id : String) (now : Nat) : Daemon × Response :=
  match request with
  | .register plugin0 =>
    let plugin := { plugin0 with registered_at := some now }
    let d1 := { d with
      connections := mapAdjust d.connections connection_id
        (fun ctx => { ctx with plugin_name := some plugin.name }) }
    let d2 := d1.publishEvent (registeredEvent plugin0 now)
    let d3 := { d2 with plugins := mapInsert d2.plugins plugin.name plugin }
    (d3, .success none)
  | .deregister name =>
    match mapGet d.plugins name with
    | some _ =>
      let d1 := { d with plugins := mapRemove d.plugins name }
      let d2 := d1.publishEvent (deregisteredEvent name now)
      let d3 := { d2 with event_bus := d2.event_bus.remove_plugin name }
      (d3, .success none)
    | none => (d, .notFound ("Plugin \x27" ++ name ++ "\x27 not found"))
  | .listPlugins =>
    (d, .success (some (Json.arr (d.plugins.map (fun kv => kv.2.toJson)))))
  | .getPlugin name =>
    match mapGet d.plugins name with
    | some p => (d, .success (some p.toJson))
    | none => (d, .notFound ("Plugin \x27" ++ name ++ "\x27 not found"))
  | .subscribe topics =>
    match mapGet d.connections connection_id with
    | some ctx =>
      match ctx.plugin_name with
      | some plugin_name =>
        ({ d with event_bus := d.event_bus.subscribe plugin_name topics },
         .success none)
      | none => (d, .error "Must register plugin before subscribing to events")
    | none => (d, .error "Connection not found")
  | .unsubscribe topics =>
    match mapGet d.connections connection_id with
    | some ctx =>
      match ctx.plugin_name with
      | some plugin_name =>
        ({ d with event_bus := d.event_bus.unsubscribe plugin_name topics },
         .success none)
      | none => (d, .error "Must register plugin before unsubscribing from events")
    | none => (d, .error "Connection not found")
  | .publish topic data =>
    let source :=
      match mapGet d.connections connection_id with
      | some ctx => ctx.plugin_name.getD "unknown"
      | none => "unknown"
    (d.publishEvent { topic := topic, source := source, data := data,
                      timestamp := some now },
     .success none)
  | .getHealth => (d, .success (some (healthJson d)))

/-- Daemon::add_connection: a fresh record with no bound plugin and an
empty channel. -/
def Daemon.add_connection (d : Daemon) (connection_id : String) : Daemon :=
  { d with connections := mapInsert d.connections connection_id ⟨none, []⟩ }

/-- Daemon::remove_connection: drop the record; when a plugin was bound
and has a subscription entry, also drop the plugin and its subscription.
No event is published on this path. -/
def Daemon.remove_connection (d : Daemon) (connection_id : String) : Daemon :=
  match mapGet d.connections connection_id with
  | some ctx =>
    let d1 := { d with connections := mapRemove d.connections connection_id }
    match ctx.plugin_name with
    | some plugin_name =>
      if mapContains d1.event_bus.subscribers plugin_name then
        { d1 with
          event_bus := d1.event_bus.remove_plugin plugin_name
          plugins := mapRemove d1.plugins plugin_name }
      else d1
    | none => d1
  | none => d

/-- The bound plugin name of a connection, none when the connection is
absent or unbound. -/
def Daemon.boundTo (d : Daemon) (connection_id : String) : Option String :=
  match mapGet d.connections connection_id with
  | some ctx => ctx.plugin_name
  | none => none

/-- The bound plugin name read directly off a connection table. -/
def boundIn (conns : List (String × ConnectionContext))
    (connection_id : String) : Option String :=
  match mapGet conns connection_id with
  | some ctx => ctx.plugin_name
  | none => none

/-- The channel contents of a connection in a connection table. -/
def bufferOf (conns : List (String × ConnectionContext))
    (connection_id : String) : Option (List Event) :=
  (mapGet conns connection_id).map ConnectionContext.sentEvents

/-- The id of the first connection in table order bound to the plugin
name: the one EventBus::publish sends to before breaking. -/
def firstBound (conns : List (String × ConnectionContext))
    (plugin_name : String) : Option String :=
  match conns with
  | [] => none
  | (cid, ctx) :: rest =>
    if ctx.plugin_name = some plugin_name then some cid
    else firstBound rest plugin_name

/-- One step of the daemon lifecycle: a connection opens, a connection
task exits, or a request is dispatched on a connection. -/
inductive Step where
  | openConn (connection_id : String) : Step
  | closeConn (connection_id : String) : Step
  | request (req : Request) (connection_id : String) (now : Nat) : Step

/-- Apply one lifecycle step. -/
def applyStep (d : Daemon) : Step → Daemon
  | .openConn cid => d.add_connection cid
  | .closeConn cid => d.remove_connection cid
  | .request req cid now => (d.handle_request req cid now).1

/-- Run a list of lifecycle steps in order. -/
def runSteps (d : Daemon) : List Step → Daemon
  | [] => d
  | s :: rest => runSteps (applyStep d s) rest

/-- The empty daemon at startup. -/
def Daemon.init : Daemon :=
  { plugins := [], event_bus := ⟨[]⟩, connections := [], eventLog := [] }

/-- A state reached from startup by some sequence of lifecycle steps. -/
def Reachable (d : Daemon) : Prop :=
  ∃ steps, runSteps Daemon.init steps = d

/-- A step respects register exclusivity when a dispatched Register never
carries a name some other connection is currently bound to. -/
def registerOk (d : Daemon) : Step → Prop
  | .request (.register p) cid _ =>
      ∀ c, c ≠ cid → d.boundTo c ≠ some p.name
  | _ => True

/-- A step respects deregister quiescence when a dispatched Deregister
never targets a name still bound to some open connection. -/
def deregisterOk (d : Daemon) : Step → Prop
  | .request (.deregister n) _ _ => ∀ c, d.boundTo c ≠ some n
  | _ => True

/-- States reachable when every Register respects register exclusivity. -/
inductive ReachND : Daemon → Prop where
  | init : ReachND Daemon.init
  | step (d : Daemon) (s : Step) : ReachND d → registerOk d s →
      ReachND (applyStep d s)

/-- States reachable when every Register respects register exclusivity
and every Deregister respects deregister quiescence. -/
inductive ReachSafe : Daemon → Prop where
  | init : ReachSafe Daemon.init
  | step (d : Daemon) (s : Step) : ReachSafe d → registerOk d s →
      deregisterOk d s → ReachSafe (applyStep d s)

/-- The matching predicate under the literal wording of the claim: a
pattern ending in * matches the topics starting with the characters of
the pattern before that final *, any pattern also matches the identical
topic. -/
def claimPatternMatches (pattern topic : String) : Bool :=
  (endsWithStar pattern && strStartsWith topic (String.mk pattern.data.dropLast))
    || topic = pattern

/-- The events the publish fanout hands to the subscriber named q, in
subscription-table order: one copy of the event for every entry of q whose
pattern list matches the topic. -/
def deliveredFor (e : Event) (q : String) : List (String × List String) → List Event
  | [] => []
  | (p, pats) :: rest =>
    (if p = q then
      (if pats.any (fun pat => patternMatches pat e.topic) then [e] else [])
    else []) ++ deliveredFor e q rest

theorem mapGet_mapInsert_self {α : Type} (m : List (String × α)) (k : String) (v : α) :
    mapGet (mapInsert m k v) k = some v := by
  induction m with
  | nil => simp [mapInsert, mapGet]
  | cons hd tl ih =>
    obtain ⟨k0, w0⟩ := hd
    by_cases h : k0 = k
    · simp [mapInsert, h, mapGet]
    · simp [mapInsert, h, mapGet, ih]

theorem mapGet_mapInsert_ne {α : Type} (m : List (String × α)) (k c : String) (v : α)
    (hne : c ≠ k) : mapGet (mapInsert m k v) c = mapGet m c := by
  have hne2 : k ≠ c := Ne.symm hne
  induction m with
  | nil => simp [mapInsert, mapGet, hne2]
  | cons hd tl ih =>
    obtain ⟨k0, w0⟩ := hd
    by_cases h : k0 = k
    · subst h
      simp [mapInsert, mapGet, hne2]
    · simp [mapInsert, h, mapGet, ih]

theorem mapGet_mapRemove_self {α : Type} (m : List (String × α)) (k : String) :
    mapGet (mapRemove m k) k = none := by
  induction m with
  | nil => simp [mapRemove, mapGet]
  | cons hd tl ih =>
    obtain ⟨k0, w0⟩ := hd
    by_cases h : k0 = k
    · simp [mapRemove, h, ih]
    · simp [mapRemove, h, mapGet, ih]

theorem mapGet_mapRemove_ne {α : Type} (m : List (String × α)) (k c : String)
    (hne : c ≠ k) : mapGet (mapRemove m k) c = mapGet m c := by
  have hne2 : k ≠ c := Ne.symm hne
  induction m with
  | nil => simp [mapRemove]
  | cons hd tl ih =>
    obtain ⟨k0, w0⟩ := hd
    by_cases h : k0 = k
    · subst h
      simp [mapRemove, mapGet, hne2, ih]
    · simp [mapRemove, h, mapGet, ih]

theorem mapGet_mapAdjust_self {α : Type} (m : List (String × α)) (k : String)
    (f : α → α) : mapGet (mapAdjust m k f) k = (mapGet m k).map f := by
  induction m with
  | nil => simp [mapAdjust, mapGet]
  | cons hd tl ih =>
    obtain ⟨k0, w0⟩ := hd
    by_cases h : k0 = k
    · simp [mapAdjust, h, mapGet]
    · simp [mapAdjust, h, mapGet, ih]

theorem mapGet_mapAdjust_ne {α : Type} (m : List (String × α)) (k c : String)
    (f : α → α) (hne : c ≠ k) : mapGet (mapAdjust m k f) c = mapGet m c := by
  have hne2 : k ≠ c := Ne.symm hne
  induction m with
  | nil => simp [mapAdjust]
  | cons hd tl ih =>
    obtain ⟨k0, w0⟩ := hd
    by_cases h : k0 = k
    · subst h
      simp [mapAdjust, mapGet, hne2]
    · simp [mapAdjust, h, mapGet, ih]

theorem mapGet_mem_keys {α : Type} (m : List (String × α)) (k : String) (v : α)
    (h : mapGet m k = some v) : k ∈ m.map Prod.fst := by
  induction m with
  | nil => simp [mapGet] at h
  | cons hd tl ih =>
    obtain ⟨k0, w0⟩ := hd
    by_cases hk : k0 = k
    · simp [hk]
    · simp [mapGet, hk] at h
      simp [ih h]

theorem mapGet_not_mem_keys {α : Type} (m : List (String × α)) (k : String)
    (h : k ∉ m.map Prod.fst) : mapGet m k = none := by
  induction m with
  | nil => rfl
  | cons hd tl ih =>
    obtain ⟨k0, w0⟩ := hd
    rw [List.map_cons] at h
    have h1 : ¬ k0 = k := fun hh => h (by simp [hh])
    have h2 : k ∉ tl.map Prod.fst := fun hh => h (by simp [hh])
    simp [mapGet, h1, ih h2]

theorem mapAdjust_keys {α : Type} (m : List (String × α)) (k : String) (f : α → α) :
    (mapAdjust m k f).map Prod.fst = m.map Prod.fst := by
  induction m with
  | nil => rfl
  | cons hd tl ih =>
    obtain ⟨k0, w0⟩ := hd
    by_cases h : k0 = k
    · simp [mapAdjust, h]
    · simp [mapAdjust, h, ih]

theorem deliverFirst_keys (e : Event) (q : String)
    (conns : List (String × ConnectionContext)) :
    (deliverFirst e q conns).map Prod.fst = conns.map Prod.fst := by
  induction conns with
  | nil => rfl
  | cons hd tl ih =>
    obtain ⟨cid, ctx⟩ := hd
    match hctx : ctx.plugin_name with
    | some n =>
      by_cases h : n = q
      · simp [deliverFirst, hctx, h]
      · simp [deliverFirst, hctx, h, ih]
    | none => simp [deliverFirst, hctx, ih]

theorem deliverFirst_boundIn (e : Event) (q c : String)
    (conns : List (String × ConnectionContext)) :
    boundIn (deliverFirst e q conns) c = boundIn conns c := by
  induction conns with
  | nil => rfl
  | cons hd tl ih =>
    obtain ⟨cid, ctx⟩ := hd
    match hctx : ctx.plugin_name with
    | some n =>
      by_cases h : n = q
      · by_cases hc : cid = c
        · simp [deliverFirst, hctx, h, boundIn, mapGet, hc]
        · simp [deliverFirst, hctx, h, boundIn, mapGet, hc]
      · by_cases hc : cid = c
        · simp [deliverFirst, hctx, h, boundIn, mapGet, hc]
        · simpa [deliverFirst, hctx, h, boundIn, mapGet, hc] using ih
    | none =>
      by_cases hc : cid = c
      · simp [deliverFirst, hctx, boundIn, mapGet, hc]
      · simpa [deliverFirst, hctx, boundIn, mapGet, hc] using ih

theorem deliverFirst_firstBound (e : Event) (q q2 : String)
    (conns : List (String × ConnectionContext)) :
    firstBound (deliverFirst e q conns) q2 = firstBound conns q2 := by
  induction conns with
  | nil => rfl
  | cons hd tl ih =>
    obtain ⟨cid, ctx⟩ := hd
    match hctx : ctx.plugin_name with
    | some n =>
      by_cases h : n = q
      · simp [deliverFirst, hctx, h, firstBound]
      · simp [deliverFirst, hctx, h, firstBound, ih]
    | none => simp [deliverFirst, hctx, firstBound, ih]

theorem deliverFirst_bufferOf_ne (e : Event) (q c : String)
    (conns : List (String × ConnectionContext))
    (hb : boundIn conns c ≠ some q) :
    bufferOf (deliverFirst e q conns) c = bufferOf conns c := by
  induction conns with
  | nil => rfl
  | cons hd tl ih =>
    obtain ⟨cid, ctx⟩ := hd
    match hctx : ctx.plugin_name with
    | some n =>
      by_cases h : n = q
      · by_cases hc : cid = c
        · exfalso
          apply hb
          simp [boundIn, mapGet, hc, hctx, h]
        · simp [deliverFirst, hctx, h, bufferOf, mapGet, hc]
      · by_cases hc : cid = c
        · simp [deliverFirst, hctx, h, bufferOf, mapGet, hc]
        · have hb2 : boundIn tl c ≠ some q := by
            simpa [boundIn, mapGet, hc] using hb
          simpa [deliverFirst, hctx, h, bufferOf, mapGet, hc] using ih hb2
    | none =>
      by_cases hc : cid = c
      · simp [deliverFirst, hctx, bufferOf, mapGet, hc]
      · have hb2 : boundIn tl c ≠ some q := by
          simpa [boundIn, mapGet, hc] using hb
        simpa [deliverFirst, hctx, bufferOf, mapGet, hc] using ih hb2

theorem firstBound_mem (conns : List (String × ConnectionContext)) (q c : String)
    (h : firstBound conns q = some c) : c ∈ conns.map Prod.fst := by
  induction conns with
  | nil => simp [firstBound] at h
  | cons hd tl ih =>
    obtain ⟨cid, ctx⟩ := hd
    by_cases hb : ctx.plugin_name = some q
    · simp [firstBound, hb] at h
      simp [h]
    · simp [firstBound, hb] at h
      simp [ih h]

theorem firstBound_boundIn (conns : List (String × ConnectionContext)) (q c : String)
    (hnd : keysNodup conns) (h : firstBound conns q = some c) :
    boundIn conns c = some q := by
  induction conns with
  | nil => simp [firstBound] at h
  | cons hd tl ih =>
    obtain ⟨cid, ctx⟩ := hd
    rw [keysNodup, List.map_cons, List.nodup_cons] at hnd
    by_cases hb : ctx.plugin_name = some q
    · simp [firstBound, hb] at h
      simp [boundIn, mapGet, h, hb]
    · simp [firstBound, hb] at h
      have hc : c ∈ tl.map Prod.fst := firstBound_mem tl q c h
      have hcid : cid ≠ c := fun hcc => hnd.1 (hcc ▸ hc)
      have := ih hnd.2 h
      simpa [boundIn, mapGet, hcid] using this

theorem deliverFirst_bufferOf_first (e : Event) (q c : String)
    (conns : List (String × ConnectionContext))
    (hnd : keysNodup conns) (h : firstBound conns q = some c) :
    bufferOf (deliverFirst e q conns) c = (bufferOf conns c).map (fun l => l ++ [e]) := by
  induction conns with
  | nil => simp [firstBound] at h
  | cons hd tl ih =>
    obtain ⟨cid, ctx⟩ := hd
    rw [keysNodup, List.map_cons, List.nodup_cons] at hnd
    match hctx : ctx.plugin_name with
    | some n =>
      by_cases hq : n = q
      · subst hq
        simp [firstBound, hctx] at h
        subst h
        simp [deliverFirst, hctx, bufferOf, mapGet]
      · have hfb : firstBound tl q = some c := by
          simpa [firstBound, hctx, hq] using h
        have hc : c ∈ tl.map Prod.fst := firstBound_mem tl q c hfb
        have hcid : cid ≠ c := fun hcc => hnd.1 (hcc ▸ hc)
        have := ih hnd.2 hfb
        simpa [deliverFirst, hctx, hq, bufferOf, mapGet, hcid] using this
    | none =>
      have hfb : firstBound tl q = some c := by
        simpa [firstBound, hctx] using h
      have hc : c ∈ tl.map Prod.fst := firstBound_mem tl q c hfb
      have hcid : cid ≠ c := fun hcc => hnd.1 (hcc ▸ hc)
      have := ih hnd.2 hfb
      simpa [deliverFirst, hctx, bufferOf, mapGet, hcid] using this

theorem publishFold_boundIn (e : Event) (c : String) (S : List (String × List String)) :
    ∀ conns : List (String × ConnectionContext),
    boundIn (S.foldl (fun conns entry =>
      if entry.2.any (fun pat => patternMatches pat e.topic) then
        deliverFirst e entry.1 conns
      else conns) conns) c = boundIn conns c := by
  induction S with
  | nil => intro conns; rfl
  | cons hd tl ih =>
    intro conns
    rw [List.foldl_cons, ih]
    by_cases h : hd.2.any (fun pat => patternMatches pat e.topic)
    · simp [h, deliverFirst_boundIn]
    · simp [h]

theorem publish_boundIn (bus : EventBus) (e : Event) (c : String)
    (conns : List (String × ConnectionContext)) :
    boundIn (bus.publish e conns) c = boundIn conns c :=
  publishFold_boundIn e c bus.subscribers conns

theorem publishFold_keys (e : Event) (S : List (String × List String)) :
    ∀ conns : List (String × ConnectionContext),
    (S.foldl (fun conns entry =>
      if entry.2.any (fun pat => patternMatches pat e.topic) then
        deliverFirst e entry.1 conns
      else conns) conns).map Prod.fst = conns.map Prod.fst := by
  induction S with
  | nil => intro conns; rfl
  | cons hd tl ih =>
    intro conns
    rw [List.foldl_cons, ih]
    by_cases h : hd.2.any (fun pat => patternMatches pat e.topic)
    · simp [h, deliverFirst_keys]
    · simp [h]

theorem publish_keys (bus : EventBus) (e : Event)
    (conns : List (String × ConnectionContext)) :
    (bus.publish e conns).map Prod.fst = conns.map Prod.fst :=
  publishFold_keys e bus.subscribers conns

theorem deliveredFor_not_mem (e : Event) (q : String) (S : List (String × List String))
    (h : q ∉ S.map Prod.fst) : deliveredFor e q S = [] := by
  induction S with
  | nil => rfl
  | cons hd tl ih =>
    obtain ⟨p, pats⟩ := hd
    rw [List.map_cons] at h
    have h1 : ¬ p = q := fun hh => h (by simp [hh])
    have h2 : q ∉ tl.map Prod.fst := fun hh => h (by simp [hh])
    simp [deliveredFor, h1, ih h2]

theorem deliveredFor_lookup (e : Event) (q : String) (S : List (String × List String))
    (ps : List String) (hnd : keysNodup S) (h : mapGet S q = some ps) :
    deliveredFor e q S =
      if ps.any (fun pat => patternMatches pat e.topic) then [e] else [] := by
  induction S with
  | nil => simp [mapGet] at h
  | cons hd tl ih =>
    obtain ⟨p, pats⟩ := hd
    rw [keysNodup, List.map_cons, List.nodup_cons] at hnd
    by_cases hp : p = q
    · subst hp
      simp [mapGet] at h
      subst h
      simp [deliveredFor, deliveredFor_not_mem e p tl hnd.1]
    · simp [mapGet, hp] at h
      simp [deliveredFor, hp, ih hnd.2 h]

theorem deliveredFor_none (e : Event) (q : String) (S : List (String × List String))
    (h : mapGet S q = none) : deliveredFor e q S = [] := by
  induction S with
  | nil => rfl
  | cons hd tl ih =>
    obtain ⟨p, pats⟩ := hd
    by_cases hp : p = q
    · simp [mapGet, hp] at h
    · simp [mapGet, hp] at h
      simp [deliveredFor, hp, ih h]

theorem publishFold_buffer (e : Event) (q c : String) :
    ∀ (S : List (String × List String)) (conns : List (String × ConnectionContext)),
    keysNodup conns → firstBound conns q = some c →
    bufferOf (S.foldl (fun conns entry =>
      if entry.2.any (fun pat => patternMatches pat e.topic) then
        deliverFirst e entry.1 conns
      else conns) conns) c
      = (bufferOf conns c).map (fun l => l ++ deliveredFor e q S) := by
  intro S
  induction S with
  | nil =>
    intro conns _ _
    cases hbuf : bufferOf conns c <;> simp [deliveredFor, hbuf]
  | cons hd tl ih =>
    intro conns hnd hfb
    obtain ⟨p, pats⟩ := hd
    have hbi : boundIn conns c = some q := firstBound_boundIn conns q c hnd hfb
    obtain ⟨ctx, hctx⟩ : ∃ ctx, mapGet conns c = some ctx := by
      cases hg : mapGet conns c with
      | none => exfalso; simp [boundIn, hg] at hbi
      | some ctx => exact ⟨ctx, rfl⟩
    rw [List.foldl_cons]
    show bufferOf
        (tl.foldl _ (if pats.any (fun pat => patternMatches pat e.topic) then
          deliverFirst e p conns else conns)) c = _
    by_cases hm : pats.any (fun pat => patternMatches pat e.topic)
    · rw [if_pos hm]
      by_cases hpq : p = q
      · subst hpq
        have hnd2 : keysNodup (deliverFirst e p conns) := by
          rw [keysNodup, deliverFirst_keys]; exact hnd
        have hfb2 : firstBound (deliverFirst e p conns) p = some c := by
          rw [deliverFirst_firstBound]; exact hfb
        rw [ih (deliverFirst e p conns) hnd2 hfb2,
            deliverFirst_bufferOf_first e p c conns hnd hfb]
        simp [bufferOf, hctx, deliveredFor, hm]
      · have hne : boundIn conns c ≠ some p := by
          rw [hbi]
          simp [Ne.symm hpq]
        have hnd2 : keysNodup (deliverFirst e p conns) := by
          rw [keysNodup, deliverFirst_keys]; exact hnd
        have hfb2 : firstBound (deliverFirst e p conns) q = some c := by
          rw [deliverFirst_firstBound]; exact hfb
        rw [ih (deliverFirst e p conns) hnd2 hfb2,
            deliverFirst_bufferOf_ne e p c conns hne]
        simp [bufferOf, hctx, deliveredFor, hpq]
    · rw [if_neg hm]
      rw [ih conns hnd hfb]
      simp [bufferOf, hctx, deliveredFor, hm]

theorem publish_buffer (bus : EventBus) (e : Event) (q c : String)
    (conns : List (String × ConnectionContext))
    (hnd : keysNodup conns) (hfb : firstBound conns q = some c) :
    bufferOf (bus.publish e conns) c
      = (bufferOf conns c).map (fun l => l ++ deliveredFor e q bus.subscribers) :=
  publishFold_buffer e q c bus.subscribers conns hnd hfb

theorem mapContains_mapInsert_self {α : Type} (m : List (String × α)) (k : String)
    (v : α) : mapContains (mapInsert m k v) k = true := by
  simp [mapContains, mapGet_mapInsert_self]

theorem mapContains_mapInsert_ne {α : Type} (m : List (String × α)) (k c : String)
    (v : α) (hne : c ≠ k) : mapContains (mapInsert m k v) c = mapContains m c := by
  simp [mapContains, mapGet_mapInsert_ne m k c v hne]

theorem mapContains_mapRemove_self {α : Type} (m : List (String × α)) (k : String) :
    mapContains (mapRemove m k) k = false := by
  simp [mapContains, mapGet_mapRemove_self]

theorem mapContains_mapRemove_ne {α : Type} (m : List (String × α)) (k c : String)
    (hne : c ≠ k) : mapContains (mapRemove m k) c = mapContains m c := by
  simp [mapContains, mapGet_mapRemove_ne m k c hne]

theorem mapContains_mapAdjust {α : Type} (m : List (String × α)) (k c : String)
    (f : α → α) : mapContains (mapAdjust m k f) c = mapContains m c := by
  by_cases hc : c = k
  · subst hc
    simp [mapContains, mapGet_mapAdjust_self]
  · simp [mapContains, mapGet_mapAdjust_ne m k c f hc]

theorem boundTo_eq_boundIn (d : Daemon) (c : String) :
    d.boundTo c = boundIn d.connections c := rfl

theorem boundTo_add_connection (d : Daemon) (cid c : String) :
    (d.add_connection cid).boundTo c = if c = cid then none else d.boundTo c := by
  by_cases hc : c = cid
  · subst hc
    simp [Daemon.add_connection, Daemon.boundTo, mapGet_mapInsert_self]
  · simp [Daemon.add_connection, Daemon.boundTo, mapGet_mapInsert_ne _ _ _ _ hc, hc]

theorem boundTo_remove_connection (d : Daemon) (cid c : String) :
    (d.remove_connection cid).boundTo c = if c = cid then none else d.boundTo c := by
  cases hg : mapGet d.connections cid with
  | none =>
    by_cases hc : c = cid
    · subst hc
      simp [Daemon.remove_connection, hg, Daemon.boundTo]
    · simp [Daemon.remove_connection, hg, hc]
  | some ctx =>
    cases hpn : ctx.plugin_name with
    | none =>
      by_cases hc : c = cid
      · subst hc
        simp [Daemon.remove_connection, hg, hpn, Daemon.boundTo, mapGet_mapRemove_self]
      · simp [Daemon.remove_connection, hg, hpn, Daemon.boundTo,
          mapGet_mapRemove_ne _ _ _ hc, hc]
    | some pname =>
      by_cases hcont : mapContains d.event_bus.subscribers pname = true
      all_goals by_cases hc : c = cid
      · subst hc
        simp [Daemon.remove_connection, hg, hpn, hcont, Daemon.boundTo,
          mapGet_mapRemove_self]
      · simp [Daemon.remove_connection, hg, hpn, hcont, Daemon.boundTo,
          mapGet_mapRemove_ne _ _ _ hc, hc]
      · subst hc
        simp [Daemon.remove_connection, hg, hpn, hcont, Daemon.boundTo,
          mapGet_mapRemove_self]
      · simp [Daemon.remove_connection, hg, hpn, hcont, Daemon.boundTo,
          mapGet_mapRemove_ne _ _ _ hc, hc]

theorem boundTo_handle_register (d : Daemon) (p : PluginInfo) (cid : String)
    (now : Nat) (c : String) :
    (d.handle_request (.register p) cid now).1.boundTo c
      = if c = cid ∧ (mapGet d.connections cid).isSome = true then some p.name
        else d.boundTo c := by
  rw [boundTo_eq_boundIn, boundTo_eq_boundIn]
  simp only [Daemon.handle_request, Daemon.publishEvent]
  rw [publish_boundIn]
  by_cases hc : c = cid
  · subst hc
    cases hg : mapGet d.connections c with
    | none =>
      simp [boundIn, mapGet_mapAdjust_self, hg]
    | some ctx =>
      simp [boundIn, mapGet_mapAdjust_self, hg]
  · simp [boundIn, mapGet_mapAdjust_ne _ _ _ _ hc, hc]

theorem boundTo_handle_nonregister (d : Daemon) (req : Request) (cid : String)
    (now : Nat) (c : String) (hreq : ∀ p, req ≠ .register p) :
    (d.handle_request req cid now).1.boundTo c = d.boundTo c := by
  cases req with
  | register p => exact absurd rfl (hreq p)
  | deregister n =>
    cases hg : mapGet d.plugins n with
    | none => simp [Daemon.handle_request, hg]
    | some pl =>
      rw [boundTo_eq_boundIn, boundTo_eq_boundIn]
      simp only [Daemon.handle_request, hg, Daemon.publishEvent]
      rw [publish_boundIn]
  | listPlugins => rfl
  | getPlugin n =>
    cases hg : mapGet d.plugins n with
    | none => simp [Daemon.handle_request, hg]
    | some pl => simp [Daemon.handle_request, hg]
  | subscribe topics =>
    cases hg : mapGet d.connections cid with
    | none => simp [Daemon.handle_request, hg]
    | some ctx =>
      cases hpn : ctx.plugin_name with
      | none => simp [Daemon.handle_request, hg, hpn]
      | some q => simp [Daemon.handle_request, hg, hpn, Daemon.boundTo]
  | unsubscribe topics =>
    cases hg : mapGet d.connections cid with
    | none => simp [Daemon.handle_request, hg]
    | some ctx =>
      cases hpn : ctx.plugin_name with
      | none => simp [Daemon.handle_request, hg, hpn]
      | some q => simp [Daemon.handle_request, hg, hpn, Daemon.boundTo]
  | publish topic data =>
    rw [boundTo_eq_boundIn, boundTo_eq_boundIn]
    simp only [Daemon.handle_request, Daemon.publishEvent]
    rw [publish_boundIn]
  | getHealth => rfl

theorem handle_register_tables (d : Daemon) (p : PluginInfo) (cid : String)
    (now : Nat) :
    (d.handle_request (.register p) cid now).1.plugins
        = mapInsert d.plugins p.name { p with registered_at := some now } ∧
    (d.handle_request (.register p) cid now).1.event_bus = d.event_bus := by
  simp [Daemon.handle_request, Daemon.publishEvent]

theorem handle_deregister_found_tables (d : Daemon) (n cid : String) (now : Nat)
    (pl : PluginInfo) (hg : mapGet d.plugins n = some pl) :
    (d.handle_request (.deregister n) cid now).1.plugins = mapRemove d.plugins n ∧
    (d.handle_request (.deregister n) cid now).1.event_bus.subscribers
        = mapRemove d.event_bus.subscribers n := by
  simp [Daemon.handle_request, hg, Daemon.publishEvent, EventBus.remove_plugin]

theorem handle_deregister_notfound_state (d : Daemon) (n cid : String) (now : Nat)
    (hg : mapGet d.plugins n = none) :
    (d.handle_request (.deregister n) cid now).1 = d := by
  simp [Daemon.handle_request, hg]

theorem handle_subscribe_state (d : Daemon) (topics : List String) (cid : String)
    (now : Nat) :
    (d.handle_request (.subscribe topics) cid now).1
      = { d with event_bus :=
            match d.boundTo cid with
            | some q => d.event_bus.subscribe q topics
            | none => d.event_bus } := by
  cases hg : mapGet d.connections cid with
  | none => simp [Daemon.handle_request, hg, Daemon.boundTo]
  | some ctx =>
    cases hpn : ctx.plugin_name with
    | none => simp [Daemon.handle_request, hg, hpn, Daemon.boundTo]
    | some q => simp [Daemon.handle_request, hg, hpn, Daemon.boundTo]

theorem handle_unsubscribe_state (d : Daemon) (topics : List String) (cid : String)
    (now : Nat) :
    (d.handle_request (.unsubscribe topics) cid now).1
      = { d with event_bus :=
            match d.boundTo cid with
            | some q => d.event_bus.unsubscribe q topics
            | none => d.event_bus } := by
  cases hg : mapGet d.connections cid with
  | none => simp [Daemon.handle_request, hg, Daemon.boundTo]
  | some ctx =>
    cases hpn : ctx.plugin_name with
    | none => simp [Daemon.handle_request, hg, hpn, Daemon.boundTo]
    | some q => simp [Daemon.handle_request, hg, hpn, Daemon.boundTo]

theorem handle_publish_tables (d : Daemon) (topic : String) (data : Json)
    (cid : String) (now : Nat) :
    (d.handle_request (.publish topic data) cid now).1.plugins = d.plugins ∧
    (d.handle_request (.publish topic data) cid now).1.event_bus = d.event_bus := by
  simp [Daemon.handle_request, Daemon.publishEvent]

theorem handle_listPlugins_state (d : Daemon) (cid : String) (now : Nat) :
    (d.handle_request .listPlugins cid now).1 = d := rfl

theorem handle_getPlugin_state (d : Daemon) (n cid : String) (now : Nat) :
    (d.handle_request (.getPlugin n) cid now).1 = d := by
  cases hg : mapGet d.plugins n with
  | none => simp [Daemon.handle_request, hg]
  | some pl => simp [Daemon.handle_request, hg]

theorem handle_getHealth_state (d : Daemon) (cid : String) (now : Nat) :
    (d.handle_request .getHealth cid now).1 = d := rfl

/-- A minimal plugin record named a. -/
def pluginA : PluginInfo := ⟨"a", "1", none, none, none⟩

/-- A minimal plugin record named b. -/
def pluginB : PluginInfo := ⟨"b", "1", none, none, none⟩

/-- A minimal plugin record named p. -/
def pluginP : PluginInfo := ⟨"p", "1", none, none, none⟩

/-- Claim C7: for every connection bound to plugin name pname, dispatching
Subscribe with a topic list replaces the entire pattern list of pname in
the subscription table with exactly the supplied list, whatever the
previous subscription state, and returns Success. -/
theorem subscribe_replaces_and_succeeds (d : Daemon) (cid : String)
    (topics : List String) (now : Nat) (pname : String)
    (h : d.boundTo cid = some pname) :
    (d.handle_request (.subscribe topics) cid now).2 = .success none ∧
    mapGet (d.handle_request (.subscribe topics) cid now).1.event_bus.subscribers
      pname = some topics := by
  obtain ⟨ctx, hctx⟩ : ∃ ctx, mapGet d.connections cid = some ctx := by
    cases hg : mapGet d.connections cid with
    | none => exact absurd h (by simp [Daemon.boundTo, hg])
    | some ctx => exact ⟨ctx, rfl⟩
  have hpn : ctx.plugin_name = some pname := by
    simpa [Daemon.boundTo, hctx] using h
  constructor
  · simp [Daemon.handle_request, hctx, hpn]
  · simp [Daemon.handle_request, hctx, hpn, EventBus.subscribe, mapGet_mapInsert_self]

/-- A daemon with plugin p registered, subscribed to an old topic list,
on connection c1. -/
def dSub : Daemon :=
  ⟨[("p", pluginP)], ⟨[("p", ["old.topic"])]⟩, [("c1", ⟨some "p", []⟩)], []⟩

/-- Concrete run of the Subscribe claim: the prior list old.topic is
replaced wholesale by the supplied one. -/
theorem subscribe_replaces_and_succeeds_witness :
    (dSub.handle_request (.subscribe ["metrics.*", "exact.topic"]) "c1" 3).2
        = .success none ∧
    mapGet ((dSub.handle_request (.subscribe ["metrics.*", "exact.topic"]) "c1"
        3).1.event_bus.subscribers) "p" = some ["metrics.*", "exact.topic"] :=
  subscribe_replaces_and_succeeds dSub "c1" ["metrics.*", "exact.topic"] 3 "p" rfl

/-- Claim C8: Deregister answers NotFound exactly when the name is absent
from the registry, leaving the whole state untouched in that case; on
success the name is afterwards absent from both the registry and the
subscription table, and a plugin.deregistered event carrying the name and
source pandemic was published. -/
theorem deregister_behavior (d : Daemon) (name cid : String) (now : Nat) :
    ((d.handle_request (.deregister name) cid now).2
        = .notFound ("Plugin \x27" ++ name ++ "\x27 not found")
      ↔ mapGet d.plugins name = none) ∧
    (mapGet d.plugins name = none →
      (d.handle_request (.deregister name) cid now).1 = d) ∧
    ((mapGet d.plugins name).isSome = true →
      (d.handle_request (.deregister name) cid now).2 = .success none ∧
      mapGet (d.handle_request (.deregister name) cid now).1.plugins name = none ∧
      mapGet (d.handle_request (.deregister name) cid now).1.event_bus.subscribers
        name = none ∧
      (d.handle_request (.deregister name) cid now).1.eventLog
        = d.eventLog ++ [deregisteredEvent name now]) := by
  cases hg : mapGet d.plugins name with
  | none =>
    refine ⟨by simp [Daemon.handle_request, hg],
      fun _ => by simp [Daemon.handle_request, hg],
      fun hs => by simp [hg] at hs⟩
  | some pl =>
    refine ⟨⟨fun hr => ?_, fun hn => ?_⟩, fun hn => ?_, fun _ => ?_⟩
    · exfalso
      simp [Daemon.handle_request, hg] at hr
    · simp at hn
    · simp at hn
    · refine ⟨?_, ?_, ?_, ?_⟩ <;>
        simp [Daemon.handle_request, hg, Daemon.publishEvent,
          EventBus.remove_plugin, mapGet_mapRemove_self]

/-- A daemon with plugin p registered and subscribed, no connections. -/
def dDereg : Daemon := ⟨[("p", pluginP)], ⟨[("p", ["x"])]⟩, [], []⟩

/-- Concrete run of the Deregister claim, both the success branch on the
present name p and the NotFound branch on the absent name zzz. -/
theorem deregister_behavior_witness :
    ((dDereg.handle_request (.deregister "p") "c9" 4).2 = .success none ∧
      mapGet (dDereg.handle_request (.deregister "p") "c9" 4).1.plugins "p" = none ∧
      mapGet (dDereg.handle_request (.deregister "p") "c9" 4).1.event_bus.subscribers
        "p" = none ∧
      (dDereg.handle_request (.deregister "p") "c9" 4).1.eventLog
        = dDereg.eventLog ++ [deregisteredEvent "p" 4]) ∧
    (dDereg.handle_request (.deregister "zzz") "c9" 4).1 = dDereg :=
  ⟨(deregister_behavior dDereg "p" "c9" 4).2.2 rfl,
   (deregister_behavior dDereg "zzz" "c9" 4).2.1 rfl⟩

/-- Claim C9: a connection close whose bound plugin has no subscription
entry removes only the connection record; the registry, the subscription
table and the publish log are untouched. -/
theorem remove_connection_transient (d : Daemon) (cid : String)
    (ctx : ConnectionContext) (pname : String)
    (hctx : mapGet d.connections cid = some ctx)
    (hpn : ctx.plugin_name = some pname)
    (hsub : mapContains d.event_bus.subscribers pname = false) :
    (d.remove_connection cid).plugins = d.plugins ∧
    (d.remove_connection cid).event_bus = d.event_bus ∧
    (d.remove_connection cid).connections = mapRemove d.connections cid ∧
    (d.remove_connection cid).eventLog = d.eventLog := by
  simp [Daemon.remove_connection, hctx, hpn, hsub]

/-- A daemon with plugin p registered but never subscribed, bound on
connection c1. -/
def dTransient : Daemon := ⟨[("p", pluginP)], ⟨[]⟩, [("c1", ⟨some "p", []⟩)], []⟩

/-- Concrete run of the transient-close claim: p stays registered. -/
theorem remove_connection_transient_witness :
    (dTransient.remove_connection "c1").plugins = dTransient.plugins ∧
    (dTransient.remove_connection "c1").event_bus = dTransient.event_bus ∧
    (dTransient.remove_connection "c1").connections
      = mapRemove dTransient.connections "c1" ∧
    (dTransient.remove_connection "c1").eventLog = dTransient.eventLog :=
  remove_connection_transient dTransient "c1" ⟨some "p", []⟩ "p" rfl rfl rfl

/-- Claim C2 (amended): when a connection task exits with a bound plugin
that has a subscription entry, the cleanup removes the plugin from the
registry and from the subscription table and drops the connection record,
but publishes no plugin.deregistered event: the publish log is unchanged. -/
theorem remove_connection_persistent_no_event (d : Daemon) (cid : String)
    (ctx : ConnectionContext) (pname : String)
    (hctx : mapGet d.connections cid = some ctx)
    (hpn : ctx.plugin_name = some pname)
    (hsub : mapContains d.event_bus.subscribers pname = true) :
    mapGet (d.remove_connection cid).plugins pname = none ∧
    mapGet (d.remove_connection cid).event_bus.subscribers pname = none ∧
    (d.remove_connection cid).connections = mapRemove d.connections cid ∧
    (d.remove_connection cid).eventLog = d.eventLog := by
  simp [Daemon.remove_connection, hctx, hpn, hsub, EventBus.remove_plugin,
    mapGet_mapRemove_self]

/-- A daemon with plugin p registered and subscribed, bound on
connection c1: a persistent connection. -/
def dPersistent : Daemon :=
  ⟨[("p", pluginP)], ⟨[("p", ["x"])]⟩, [("c1", ⟨some "p", []⟩)], []⟩

/-- Concrete run of the amended persistent-close claim. -/
theorem remove_connection_persistent_no_event_witness :
    mapGet (dPersistent.remove_connection "c1").plugins "p" = none ∧
    mapGet (dPersistent.remove_connection "c1").event_bus.subscribers "p" = none ∧
    (dPersistent.remove_connection "c1").connections
      = mapRemove dPersistent.connections "c1" ∧
    (dPersistent.remove_connection "c1").eventLog = dPersistent.eventLog :=
  remove_connection_persistent_no_event dPersistent "c1" ⟨some "p", []⟩ "p" rfl rfl rfl

/-- Against claim C2 as stated: closing the persistent connection of the
subscribed plugin p does remove it from registry and subscription table,
yet the publish log stays empty, so no plugin.deregistered event is
emitted anywhere on this path. -/
theorem remove_connection_persistent_counterexample :
    mapContains (dPersistent.remove_connection "c1").plugins "p" = false ∧
    mapContains (dPersistent.remove_connection "c1").event_bus.subscribers "p"
      = false ∧
    (dPersistent.remove_connection "c1").connections = [] ∧
    (dPersistent.remove_connection "c1").eventLog = [] :=
  ⟨rfl, rfl, rfl, rfl⟩

/-- Claim C3 (amended): dispatching Register with a plugin named
differently from the name the connection is already bound to does not
produce an Error: the Register arm has no conflict check, silently rebinds
the connection to the new name and returns Success. -/
theorem register_rebind_succeeds (d : Daemon) (p : PluginInfo) (cid : String)
    (now : Nat) (a : String) (hb : d.boundTo cid = some a) (_hne : a ≠ p.name) :
    (d.handle_request (.register p) cid now).2 = .success none ∧
    (d.handle_request (.register p) cid now).1.boundTo cid = some p.name := by
  obtain ⟨ctx, hctx⟩ : ∃ ctx, mapGet d.connections cid = some ctx := by
    cases hg : mapGet d.connections cid with
    | none => exact absurd hb (by simp [Daemon.boundTo, hg])
    | some ctx => exact ⟨ctx, rfl⟩
  constructor
  · simp [Daemon.handle_request]
  · rw [boundTo_handle_register]
    simp [hctx]

/-- A daemon with connection c1 bound to plugin a. -/
def dBoundA : Daemon := ⟨[("a", pluginA)], ⟨[]⟩, [("c1", ⟨some "a", []⟩)], []⟩

/-- Concrete run of the amended rebind claim: registering b over the
binding to a succeeds and rebinds. -/
theorem register_rebind_succeeds_witness :
    (dBoundA.handle_request (.register pluginB) "c1" 2).2 = .success none ∧
    (dBoundA.handle_request (.register pluginB) "c1" 2).1.boundTo "c1" = some "b" :=
  register_rebind_succeeds dBoundA pluginB "c1" 2 "a" rfl (by decide)

/-- Against claim C3 as stated: connection c1 is bound to a, the incoming
plugin is named b, b differs from a, and the response is Success, not an
Error. -/
theorem register_conflict_counterexample :
    dBoundA.boundTo "c1" = some "a" ∧ ("b" : String) ≠ "a" ∧
    (dBoundA.handle_request (.register pluginB) "c1" 0).2 = Response.success none :=
  ⟨rfl, by decide, rfl⟩

/-- Claim C1 (amended): with a subscriber s holding pattern list ps and a
connection bound to s, publishing an event delivers it to that connection
exactly when some pattern in ps matches the topic under the source test:
a pattern ending in * matches the topics that start with the pattern
stripped of its whole trailing run of * characters, any other pattern
matches only the identical topic. -/
theorem publish_delivery_matches (s cid : String) (ps : List String) (e : Event) :
    bufferOf (EventBus.publish ⟨[(s, ps)]⟩ e [(cid, ⟨some s, []⟩)]) cid
      = some (if ps.any (fun pat => patternMatches pat e.topic) then [e] else []) ∧
    (bufferOf (EventBus.publish ⟨[(s, ps)]⟩ e [(cid, ⟨some s, []⟩)]) cid
        = some [e]
      ↔ ps.any (fun pat => patternMatches pat e.topic) = true) := by
  have hpub : EventBus.publish ⟨[(s, ps)]⟩ e [(cid, ⟨some s, []⟩)]
      = if ps.any (fun pat => patternMatches pat e.topic) then
          deliverFirst e s [(cid, ⟨some s, []⟩)]
        else [(cid, ⟨some s, []⟩)] := rfl
  rw [hpub]
  by_cases h : ps.any (fun pat => patternMatches pat e.topic)
  · rw [if_pos h]
    constructor
    · simp [deliverFirst, bufferOf, mapGet, h]
    · simp [deliverFirst, bufferOf, mapGet, h]
  · rw [if_neg h]
    have hfalse : ps.any (fun pat => patternMatches pat e.topic) = false := by
      simpa using h
    constructor
    · simp [bufferOf, mapGet, hfalse]
    · simp [bufferOf, mapGet, hfalse]

/-- Against claim C1 as stated: the pattern a** ends in a star, and the
characters before that final star are a*. The topic ab does not start
with a* and is not equal to a**, so under the claim wording the
subscriber is not delivered the event; the source trims every trailing
star and delivers it. -/
theorem multi_star_counterexample :
    bufferOf (EventBus.publish ⟨[("s", ["a**"])]⟩
        ⟨"ab", "src", Json.null, none⟩ [("c", ⟨some "s", []⟩)]) "c"
      = some [⟨"ab", "src", Json.null, none⟩] ∧
    claimPatternMatches "a**" "ab" = false ∧
    patternMatches "a**" "ab" = true :=
  ⟨rfl, rfl, rfl⟩

/-- Claim C10: when plugin P has a subscription whose patterns match
plugin.deregistered and some connection is bound to P, a successful
Deregister of P delivers the plugin.deregistered event to the first
connection bound to P, because the dispatcher publishes before removing
the subscription entry. -/
theorem deregister_delivers_to_bound_connection (d : Daemon) (P cid : String)
    (now : Nat) (c : String) (ps : List String)
    (hndc : keysNodup d.connections) (hnds : keysNodup d.event_bus.subscribers)
    (hreg : (mapGet d.plugins P).isSome = true)
    (hsub : mapGet d.event_bus.subscribers P = some ps)
    (hmatch : ps.any (fun pat => patternMatches pat "plugin.deregistered") = true)
    (hfb : firstBound d.connections P = some c) :
    bufferOf (d.handle_request (.deregister P) cid now).1.connections c
      = (bufferOf d.connections c).map (fun l => l ++ [deregisteredEvent P now]) := by
  obtain ⟨pl, hpl⟩ : ∃ pl, mapGet d.plugins P = some pl := by
    cases hg : mapGet d.plugins P with
    | none => rw [hg] at hreg; simp at hreg
    | some pl => exact ⟨pl, rfl⟩
  have hconn : (d.handle_request (.deregister P) cid now).1.connections
      = d.event_bus.publish (deregisteredEvent P now) d.connections := by
    simp [Daemon.handle_request, hpl, Daemon.publishEvent]
  rw [hconn,
    publish_buffer d.event_bus (deregisteredEvent P now) P c d.connections hndc hfb,
    deliveredFor_lookup _ _ _ ps hnds hsub]
  simp [hmatch, deregisteredEvent]

/-- A daemon with plugin p registered, subscribed to plugin.*, bound on
connection c1. -/
def dLifecycle : Daemon :=
  ⟨[("p", pluginP)], ⟨[("p", ["plugin.*"])]⟩, [("c1", ⟨some "p", []⟩)], []⟩

/-- Concrete run of the Deregister self-delivery claim: the dying plugin
hears about its own removal. -/
theorem deregister_delivers_witness :
    bufferOf (dLifecycle.handle_request (.deregister "p") "c1" 7).1.connections "c1"
      = some [deregisteredEvent "p" 7] := by
  rw [deregister_delivers_to_bound_connection dLifecycle "p" "c1" 7 "c1"
    ["plugin.*"] (by decide) (by decide) rfl rfl rfl rfl]
  rfl

theorem bufferOf_mapAdjust_bind (conns : List (String × ConnectionContext))
    (cid c n : String) :
    bufferOf (mapAdjust conns cid (fun x => { x with plugin_name := some n })) c
      = bufferOf conns c := by
  by_cases hc : c = cid
  · subst hc
    cases hg : mapGet conns c <;>
      simp [bufferOf, mapGet_mapAdjust_self, hg]
  · simp [bufferOf, mapGet_mapAdjust_ne _ _ _ _ hc]

theorem firstBound_mapAdjust_bind_self (conns : List (String × ConnectionContext))
    (cid n : String) (ctx : ConnectionContext)
    (hnd : keysNodup conns) (hctx : mapGet conns cid = some ctx)
    (hno : ∀ c, c ≠ cid → boundIn conns c ≠ some n) :
    firstBound (mapAdjust conns cid (fun x => { x with plugin_name := some n })) n
      = some cid := by
  induction conns with
  | nil => simp [mapGet] at hctx
  | cons hd tl ih =>
    obtain ⟨k, v⟩ := hd
    rw [keysNodup, List.map_cons, List.nodup_cons] at hnd
    by_cases hk : k = cid
    · subst hk
      simp [mapAdjust, firstBound]
    · have hkb : v.plugin_name ≠ some n := by
        have h1 := hno k hk
        simpa [boundIn, mapGet] using h1
      have hctx2 : mapGet tl cid = some ctx := by
        simpa [mapGet, hk] using hctx
      have hno2 : ∀ c, c ≠ cid → boundIn tl c ≠ some n := by
        intro c hc hbc
        obtain ⟨ctx2, hg2⟩ : ∃ ctx2, mapGet tl c = some ctx2 := by
          cases hg : mapGet tl c with
          | none => exfalso; simp [boundIn, hg] at hbc
          | some ctx2 => exact ⟨ctx2, rfl⟩
        have hck : ¬ k = c := by
          intro hcc
          exact hnd.1 (hcc ▸ mapGet_mem_keys tl c ctx2 hg2)
        exact hno c hc (by simpa [boundIn, mapGet, hck] using hbc)
      simp [mapAdjust, hk, firstBound, hkb]
      exact ih hnd.2 hctx2 hno2

theorem firstBound_mapAdjust_bind_ne (conns : List (String × ConnectionContext))
    (cid n q c : String) (hnq : n ≠ q) (hc : c ≠ cid)
    (h : firstBound conns q = some c) :
    firstBound (mapAdjust conns cid (fun x => { x with plugin_name := some n })) q
      = some c := by
  induction conns with
  | nil => simp [firstBound] at h
  | cons hd tl ih =>
    obtain ⟨k, v⟩ := hd
    by_cases hk : k = cid
    · subst hk
      by_cases hb : v.plugin_name = some q
      · exfalso
        apply hc
        simp [firstBound, hb] at h
        exact h.symm
      · simp [mapAdjust, firstBound, hb, hnq]
        simpa [firstBound, hb] using h
    · by_cases hb : v.plugin_name = some q
      · simp [firstBound, hb] at h
        subst h
        simp [mapAdjust, hk, firstBound, hb]
      · simp [mapAdjust, hk, firstBound, hb]
        exact ih (by simpa [firstBound, hb] using h)

/-- Claim C6 (amended): the Register fanout runs after the connection has
been rebound to the incoming plugin name but consults only the
subscription table, which Register never modifies, so the position of the
registry insert is irrelevant. The registering plugin receives its own
plugin.registered event exactly when its name already has a subscription
entry with a matching pattern; every other subscriber whose entry existed
before the request and whose first bound connection is another connection
receives the event exactly when its patterns match. -/
theorem register_fanout (d : Daemon) (p : PluginInfo) (cid : String) (now : Nat)
    (ctx : ConnectionContext)
    (hndc : keysNodup d.connections) (hnds : keysNodup d.event_bus.subscribers)
    (hctx : mapGet d.connections cid = some ctx)
    (honly : ∀ c, c ≠ cid → boundIn d.connections c ≠ some p.name) :
    (bufferOf (d.handle_request (.register p) cid now).1.connections cid
      = (bufferOf d.connections cid).map (fun l => l ++
          (match mapGet d.event_bus.subscribers p.name with
           | some ps =>
             if ps.any (fun pat => patternMatches pat "plugin.registered") then
               [registeredEvent p now]
             else []
           | none => []))) ∧
    (∀ q qs c, q ≠ p.name → c ≠ cid →
      mapGet d.event_bus.subscribers q = some qs →
      firstBound d.connections q = some c →
      bufferOf (d.handle_request (.register p) cid now).1.connections c
        = (bufferOf d.connections c).map (fun l => l ++
            (if qs.any (fun pat => patternMatches pat "plugin.registered") then
              [registeredEvent p now]
            else []))) := by
  have hconn : (d.handle_request (.register p) cid now).1.connections
      = d.event_bus.publish (registeredEvent p now)
          (mapAdjust d.connections cid
            (fun x => { x with plugin_name := some p.name })) := by
    simp [Daemon.handle_request, Daemon.publishEvent]
  have hnd1 : keysNodup (mapAdjust d.connections cid
      (fun x => { x with plugin_name := some p.name })) := by
    rw [keysNodup, mapAdjust_keys]; exact hndc
  constructor
  · have hfb1 : firstBound (mapAdjust d.connections cid
        (fun x => { x with plugin_name := some p.name })) p.name = some cid :=
      firstBound_mapAdjust_bind_self d.connections cid p.name ctx hndc hctx honly
    rw [hconn, publish_buffer _ _ p.name cid _ hnd1 hfb1, bufferOf_mapAdjust_bind]
    cases hs : mapGet d.event_bus.subscribers p.name with
    | some ps =>
      rw [deliveredFor_lookup _ _ _ ps hnds hs]
      simp [registeredEvent]
    | none =>
      rw [deliveredFor_none _ _ _ hs]
  · intro q qs c hq hc hqs hfb
    have hfb1 : firstBound (mapAdjust d.connections cid
        (fun x => { x with plugin_name := some p.name })) q = some c :=
      firstBound_mapAdjust_bind_ne d.connections cid p.name q c (Ne.symm hq) hc hfb
    rw [hconn, publish_buffer _ _ q c _ hnd1 hfb1, bufferOf_mapAdjust_bind,
      deliveredFor_lookup _ _ _ qs hnds hqs]
    simp [registeredEvent]

/-- A daemon where plugin p is bound on c1 and subscribed to plugin.*,
and plugin q is bound on c2 and subscribed to the exact topic
plugin.registered. -/
def dFanout : Daemon :=
  ⟨[("p", pluginP)], ⟨[("p", ["plugin.*"]), ("q", ["plugin.registered"])]⟩,
   [("c1", ⟨some "p", []⟩), ("c2", ⟨some "q", []⟩)], []⟩

/-- Concrete run of the amended Register fanout claim: the pre-existing
subscriber q on c2 receives the event, and so does the re-registering
plugin p itself because its subscription entry predates the request. -/
theorem register_fanout_witness :
    bufferOf (dFanout.handle_request (.register pluginP) "c1" 5).1.connections "c1"
      = some [registeredEvent pluginP 5] ∧
    bufferOf (dFanout.handle_request (.register pluginP) "c1" 5).1.connections "c2"
      = some [registeredEvent pluginP 5] := by
  have honly : ∀ c, c ≠ "c1" → boundIn dFanout.connections c ≠ some pluginP.name := by
    intro c hc
    by_cases h2 : c = "c2"
    · subst h2
      decide
    · have h1 : ¬ ("c1" = c) := fun hh => hc hh.symm
      have h2b : ¬ ("c2" = c) := fun hh => h2 hh.symm
      simp [dFanout, boundIn, mapGet, h1, h2b]
  have h := register_fanout dFanout pluginP "c1" 5 ⟨some "p", []⟩ (by decide)
    (by decide) rfl honly
  constructor
  · rw [h.1]; rfl
  · rw [h.2 "q" ["plugin.registered"] "c2" (by decide) (by decide) rfl rfl]; rfl

/-- A daemon where plugin p is bound on c1 and subscribed to plugin.*. -/
def dSelf : Daemon :=
  ⟨[("p", pluginP)], ⟨[("p", ["plugin.*"])]⟩, [("c1", ⟨some "p", []⟩)], []⟩

/-- Against claim C6 as stated: dispatching Register for p on the
subscribed connection c1 delivers the plugin.registered event of that
very request to the plugin being registered, even though the publish
happens before the final registry insert. -/
theorem register_self_receives_counterexample :
    bufferOf (dSelf.handle_request (.register pluginP) "c1" 5).1.connections "c1"
      = some [registeredEvent pluginP 5] := rfl

/-- No two distinct connections share a bound plugin name. -/
def NoDupBind (d : Daemon) : Prop :=
  ∀ c1 c2 n, d.boundTo c1 = some n → d.boundTo c2 = some n → c1 = c2

/-- Every key of the subscription table is registered. -/
def SubsWF (d : Daemon) : Prop :=
  ∀ k, mapContains d.event_bus.subscribers k = true → mapContains d.plugins k = true

/-- Every bound plugin name of a connection is registered. -/
def BoundWF (d : Daemon) : Prop :=
  ∀ c n, d.boundTo c = some n → mapContains d.plugins n = true

theorem noDupBind_handle_nonregister (d : Daemon) (req : Request) (cid : String)
    (now : Nat) (hnd : NoDupBind d) (hreq : ∀ p, req ≠ .register p) :
    NoDupBind (d.handle_request req cid now).1 := by
  intro c1 c2 n h1 h2
  rw [boundTo_handle_nonregister d req cid now c1 hreq] at h1
  rw [boundTo_handle_nonregister d req cid now c2 hreq] at h2
  exact hnd c1 c2 n h1 h2

theorem noDupBind_applyStep (d : Daemon) (s : Step) (hnd : NoDupBind d)
    (hok : registerOk d s) : NoDupBind (applyStep d s) := by
  cases s with
  | openConn cid =>
    intro c1 c2 n h1 h2
    simp only [applyStep] at h1 h2
    rw [boundTo_add_connection] at h1 h2
    by_cases hc1 : c1 = cid
    · rw [if_pos hc1] at h1; simp at h1
    · rw [if_neg hc1] at h1
      by_cases hc2 : c2 = cid
      · rw [if_pos hc2] at h2; simp at h2
      · rw [if_neg hc2] at h2
        exact hnd c1 c2 n h1 h2
  | closeConn cid =>
    intro c1 c2 n h1 h2
    simp only [applyStep] at h1 h2
    rw [boundTo_remove_connection] at h1 h2
    by_cases hc1 : c1 = cid
    · rw [if_pos hc1] at h1; simp at h1
    · rw [if_neg hc1] at h1
      by_cases hc2 : c2 = cid
      · rw [if_pos hc2] at h2; simp at h2
      · rw [if_neg hc2] at h2
        exact hnd c1 c2 n h1 h2
  | request req cid now =>
    cases req with
    | register p =>
      intro c1 c2 n h1 h2
      simp only [applyStep] at h1 h2
      rw [boundTo_handle_register] at h1 h2
      by_cases hc1 : c1 = cid ∧ (mapGet d.connections cid).isSome = true
      · rw [if_pos hc1] at h1
        by_cases hc2 : c2 = cid ∧ (mapGet d.connections cid).isSome = true
        · rw [hc1.1, hc2.1]
        · rw [if_neg hc2] at h2
          exfalso
          have hn : n = p.name := by injection h1 with hh; exact hh.symm
          subst hn
          have hc2ne : c2 ≠ cid := fun hh => hc2 ⟨hh, hc1.2⟩
          exact hok c2 hc2ne h2
      · rw [if_neg hc1] at h1
        by_cases hc2 : c2 = cid ∧ (mapGet d.connections cid).isSome = true
        · rw [if_pos hc2] at h2
          exfalso
          have hn : n = p.name := by injection h2 with hh; exact hh.symm
          subst hn
          have hc1ne : c1 ≠ cid := fun hh => hc1 ⟨hh, hc2.2⟩
          exact hok c1 hc1ne h1
        · rw [if_neg hc2] at h2
          exact hnd c1 c2 n h1 h2
    | deregister nm =>
      exact noDupBind_handle_nonregister d _ cid now hnd (fun p hp => by cases hp)
    | listPlugins =>
      exact noDupBind_handle_nonregister d _ cid now hnd (fun p hp => by cases hp)
    | getPlugin nm =>
      exact noDupBind_handle_nonregister d _ cid now hnd (fun p hp => by cases hp)
    | subscribe topics =>
      exact noDupBind_handle_nonregister d _ cid now hnd (fun p hp => by cases hp)
    | unsubscribe topics =>
      exact noDupBind_handle_nonregister d _ cid now hnd (fun p hp => by cases hp)
    | publish topic data =>
      exact noDupBind_handle_nonregister d _ cid now hnd (fun p hp => by cases hp)
    | getHealth =>
      exact noDupBind_handle_nonregister d _ cid now hnd (fun p hp => by cases hp)

theorem remove_connection_tables (d : Daemon) (cid : String) :
    ((d.remove_connection cid).plugins = d.plugins ∧
     (d.remove_connection cid).event_bus = d.event_bus) ∨
    (∃ pname, d.boundTo cid = some pname ∧
      mapContains d.event_bus.subscribers pname = true ∧
      (d.remove_connection cid).plugins = mapRemove d.plugins pname ∧
      (d.remove_connection cid).event_bus.subscribers
        = mapRemove d.event_bus.subscribers pname) := by
  cases hg : mapGet d.connections cid with
  | none => left; simp [Daemon.remove_connection, hg]
  | some ctx =>
    cases hpn : ctx.plugin_name with
    | none => left; simp [Daemon.remove_connection, hg, hpn]
    | some pname =>
      by_cases hcont : mapContains d.event_bus.subscribers pname = true
      · right
        exact ⟨pname, by simp [Daemon.boundTo, hg, hpn], hcont,
          by simp [Daemon.remove_connection, hg, hpn, hcont, EventBus.remove_plugin],
          by simp [Daemon.remove_connection, hg, hpn, hcont, EventBus.remove_plugin]⟩
      · left
        have hcf : mapContains d.event_bus.subscribers pname = false := by
          simpa using hcont
        simp [Daemon.remove_connection, hg, hpn, hcf]

theorem inv_applyStep (d : Daemon) (s : Step)
    (hs : SubsWF d) (hb : BoundWF d) (hnd : NoDupBind d)
    (hrok : registerOk d s) (hdok : deregisterOk d s) :
    SubsWF (applyStep d s) ∧ BoundWF (applyStep d s) := by
  cases s with
  | openConn cid =>
    refine ⟨?_, ?_⟩
    · intro k hk
      simp only [applyStep, Daemon.add_connection] at hk
      exact hs k hk
    · intro c n h
      simp only [applyStep] at h
      rw [boundTo_add_connection] at h
      by_cases hc : c = cid
      · rw [if_pos hc] at h; simp at h
      · rw [if_neg hc] at h
        exact hb c n h
  | closeConn cid =>
    rcases remove_connection_tables d cid with ⟨hpl, hbus⟩ |
      ⟨pname, hbnd, _, hpl, hbus⟩
    · refine ⟨?_, ?_⟩
      · intro k hk
        simp only [applyStep] at hk ⊢
        rw [hbus] at hk
        rw [hpl]
        exact hs k hk
      · intro c n h
        simp only [applyStep] at h ⊢
        rw [boundTo_remove_connection] at h
        rw [hpl]
        by_cases hc : c = cid
        · rw [if_pos hc] at h; simp at h
        · rw [if_neg hc] at h
          exact hb c n h
    · refine ⟨?_, ?_⟩
      · intro k hk
        simp only [applyStep] at hk ⊢
        rw [hbus] at hk
        have hkne : k ≠ pname := by
          intro hkk
          subst hkk
          rw [mapContains_mapRemove_self] at hk
          simp at hk
        rw [mapContains_mapRemove_ne _ _ _ hkne] at hk
        rw [hpl, mapContains_mapRemove_ne _ _ _ hkne]
        exact hs k hk
      · intro c n h
        simp only [applyStep] at h ⊢
        rw [boundTo_remove_connection] at h
        by_cases hc : c = cid
        · rw [if_pos hc] at h; simp at h
        · rw [if_neg hc] at h
          have hne : n ≠ pname := by
            intro hnn
            subst hnn
            exact hc (hnd c cid n h hbnd)
          rw [hpl, mapContains_mapRemove_ne _ _ _ hne]
          exact hb c n h
  | request req cid now =>
    cases req with
    | register p =>
      obtain ⟨hpl, hbus⟩ := handle_register_tables d p cid now
      refine ⟨?_, ?_⟩
      · intro k hk
        simp only [applyStep] at hk ⊢
        rw [hbus] at hk
        rw [hpl]
        by_cases hkp : k = p.name
        · subst hkp
          exact mapContains_mapInsert_self _ _ _
        · rw [mapContains_mapInsert_ne _ _ _ _ hkp]
          exact hs k hk
      · intro c n h
        simp only [applyStep] at h ⊢
        rw [boundTo_handle_register] at h
        rw [hpl]
        by_cases hc : c = cid ∧ (mapGet d.connections cid).isSome = true
        · rw [if_pos hc] at h
          have hn : n = p.name := by injection h with hh; exact hh.symm
          subst hn
          exact mapContains_mapInsert_self _ _ _
        · rw [if_neg hc] at h
          by_cases hnp : n = p.name
          · subst hnp
            exact mapContains_mapInsert_self _ _ _
          · rw [mapContains_mapInsert_ne _ _ _ _ hnp]
            exact hb c n h
    | deregister nm =>
      cases hg : mapGet d.plugins nm with
      | none =>
        have hstate := handle_deregister_notfound_state d nm cid now hg
        constructor
        · intro k hk
          simp only [applyStep] at hk ⊢
          rw [hstate] at hk ⊢
          exact hs k hk
        · intro c n h
          simp only [applyStep] at h ⊢
          rw [hstate] at h ⊢
          exact hb c n h
      | some pl =>
        obtain ⟨hpl, hbus⟩ := handle_deregister_found_tables d nm cid now pl hg
        refine ⟨?_, ?_⟩
        · intro k hk
          simp only [applyStep] at hk ⊢
          rw [hbus] at hk
          have hkne : k ≠ nm := by
            intro hkk
            subst hkk
            rw [mapContains_mapRemove_self] at hk
            simp at hk
          rw [mapContains_mapRemove_ne _ _ _ hkne] at hk
          rw [hpl, mapContains_mapRemove_ne _ _ _ hkne]
          exact hs k hk
        · intro c n h
          simp only [applyStep] at h ⊢
          rw [boundTo_handle_nonregister d _ cid now c (fun p hp => by cases hp)]
            at h
          have hne : n ≠ nm := by
            intro hnn
            subst hnn
            exact hdok c h
          rw [hpl, mapContains_mapRemove_ne _ _ _ hne]
          exact hb c n h
    | listPlugins =>
      constructor
      · intro k hk
        simp only [applyStep, handle_listPlugins_state] at hk ⊢
        exact hs k hk
      · intro c n h
        simp only [applyStep, handle_listPlugins_state] at h ⊢
        exact hb c n h
    | getPlugin nm =>
      have hstate := handle_getPlugin_state d nm cid now
      constructor
      · intro k hk
        simp only [applyStep] at hk ⊢
        rw [hstate] at hk ⊢
        exact hs k hk
      · intro c n h
        simp only [applyStep] at h ⊢
        rw [hstate] at h ⊢
        exact hb c n h
    | subscribe topics =>
      have hstate := handle_subscribe_state d topics cid now
      refine ⟨?_, ?_⟩
      · intro k hk
        simp only [applyStep] at hk ⊢
        rw [hstate] at hk ⊢
        cases hbnd : d.boundTo cid with
        | none =>
          simp only [hbnd] at hk
          exact hs k hk
        | some q =>
          simp only [hbnd] at hk
          simp only [EventBus.subscribe] at hk
          by_cases hkq : k = q
          · subst hkq
            exact hb cid k hbnd
          · rw [mapContains_mapInsert_ne _ _ _ _ hkq] at hk
            exact hs k hk
      · intro c n h
        simp only [applyStep] at h ⊢
        rw [hstate] at h ⊢
        exact hb c n h
    | unsubscribe topics =>
      have hstate := handle_unsubscribe_state d topics cid now
      refine ⟨?_, ?_⟩
      · intro k hk
        simp only [applyStep] at hk ⊢
        rw [hstate] at hk ⊢
        cases hbnd : d.boundTo cid with
        | none =>
          simp only [hbnd] at hk
          exact hs k hk
        | some q =>
          simp only [hbnd] at hk
          simp only [EventBus.unsubscribe] at hk
          rw [mapContains_mapAdjust] at hk
          exact hs k hk
      · intro c n h
        simp only [applyStep] at h ⊢
        rw [hstate] at h ⊢
        exact hb c n h
    | publish topic data =>
      obtain ⟨hpl, hbus⟩ := handle_publish_tables d topic data cid now
      refine ⟨?_, ?_⟩
      · intro k hk
        simp only [applyStep] at hk ⊢
        rw [hbus] at hk
        rw [hpl]
        exact hs k hk
      · intro c n h
        simp only [applyStep] at h ⊢
        rw [boundTo_handle_nonregister d _ cid now c (fun p hp => by cases hp)] at h
        rw [hpl]
        exact hb c n h
    | getHealth =>
      constructor
      · intro k hk
        simp only [applyStep, handle_getHealth_state] at hk ⊢
        exact hs k hk
      · intro c n h
        simp only [applyStep, handle_getHealth_state] at h ⊢
        exact hb c n h

theorem reachND_noDupBind (d : Daemon) (h : ReachND d) : NoDupBind d := by
  induction h with
  | init =>
    intro c1 c2 n h1 h2
    simp [Daemon.init, Daemon.boundTo, mapGet] at h1
  | step d0 s h0 hok ih => exact noDupBind_applyStep d0 s ih hok

theorem reachSafe_inv (d : Daemon) (h : ReachSafe d) :
    SubsWF d ∧ BoundWF d ∧ NoDupBind d := by
  induction h with
  | init =>
    refine ⟨?_, ?_, ?_⟩
    · intro k hk
      simp [Daemon.init, mapContains, mapGet] at hk
    · intro c n hc
      simp [Daemon.init, Daemon.boundTo, mapGet] at hc
    · intro c1 c2 n h1 h2
      simp [Daemon.init, Daemon.boundTo, mapGet] at h1
  | step d0 s h0 hrok hdok ih =>
    obtain ⟨hsw, hbw, hnd⟩ := ih
    obtain ⟨hs2, hb2⟩ := inv_applyStep d0 s hsw hbw hnd hrok hdok
    exact ⟨hs2, hb2, noDupBind_applyStep d0 s hnd hrok⟩

/-- Claim C4 (amended): in every state reachable from startup by
connection opens, closes and request dispatches in which each Register is
dispatched while no other connection is bound to the incoming name, two
connections bound to the same plugin name are the same connection. -/
theorem reachND_no_duplicate_bindings (d : Daemon) (h : ReachND d)
    (c1 c2 n : String) (h1 : d.boundTo c1 = some n)
    (h2 : d.boundTo c2 = some n) : c1 = c2 :=
  reachND_noDupBind d h c1 c2 n h1 h2

/-- The steps of the duplicate-binding run: two connections each register
the same plugin name p. -/
def dupBindSteps : List Step :=
  [.openConn "c1", .openConn "c2",
   .request (.register pluginP) "c1" 0,
   .request (.register pluginP) "c2" 1]

/-- Against claim C4 as stated: after two Register requests carrying the
same name p on two open connections, both connection records are bound to
p, so the no-duplicate-bindings invariant fails on a reachable state. -/
theorem duplicate_binding_counterexample :
    (runSteps Daemon.init dupBindSteps).boundTo "c1" = some "p" ∧
    (runSteps Daemon.init dupBindSteps).boundTo "c2" = some "p" ∧
    ("c1" : String) ≠ "c2" :=
  ⟨rfl, rfl, by decide⟩

/-- Concrete run of the amended no-duplicate-bindings claim on the
exclusivity-respecting trace that opens c1 and registers p there. -/
theorem reachND_no_duplicate_bindings_witness : ("c1" : String) = "c1" := by
  have h1 : ReachND (applyStep Daemon.init (.openConn "c1")) :=
    ReachND.step Daemon.init (.openConn "c1") ReachND.init trivial
  have hok : registerOk (applyStep Daemon.init (.openConn "c1"))
      (.request (.register pluginP) "c1" 0) := by
    intro c hc
    by_cases h : ("c1" : String) = c
    · exact absurd h.symm hc
    · simp [applyStep, Daemon.add_connection, Daemon.init, Daemon.boundTo,
        mapGet, mapInsert, h]
  have h2 : ReachND (applyStep (applyStep Daemon.init (.openConn "c1"))
      (.request (.register pluginP) "c1" 0)) :=
    ReachND.step _ _ h1 hok
  exact reachND_no_duplicate_bindings _ h2 "c1" "c1" "p" rfl rfl

/-- Claim C5 (amended): in every state reachable from startup in which
each Register respects binding exclusivity and each Deregister targets a
name not bound to any open connection, every key of the subscription
table is also a key of the plugin registry. -/
theorem reachSafe_subscribers_registered (d : Daemon) (h : ReachSafe d)
    (k : String) (hk : mapContains d.event_bus.subscribers k = true) :
    mapContains d.plugins k = true :=
  (reachSafe_inv d h).1 k hk

/-- The steps of the orphan-subscription run: register p, deregister it
while connection c1 stays bound to it, then Subscribe on c1. -/
def subsOrphanSteps : List Step :=
  [.openConn "c1",
   .request (.register pluginP) "c1" 0,
   .request (.deregister "p") "c1" 1,
   .request (.subscribe ["t"]) "c1" 2]

/-- Against claim C5 as stated: after deregistering p while its connection
stays bound and subscribing again, the subscription table holds key p
while the registry does not, on a reachable state between dispatches. -/
theorem subscription_orphan_counterexample :
    mapContains (runSteps Daemon.init subsOrphanSteps).event_bus.subscribers "p"
      = true ∧
    mapContains (runSteps Daemon.init subsOrphanSteps).plugins "p" = false :=
  ⟨rfl, rfl⟩

/-- The state after opening c1, registering p and subscribing, along the
restriction-respecting trace. -/
def safeState : Daemon :=
  applyStep (applyStep (applyStep Daemon.init (.openConn "c1"))
    (.request (.register pluginP) "c1" 0)) (.request (.subscribe ["t"]) "c1" 1)

/-- Concrete run of the amended subscription-table claim: after the safe
trace, the subscribed key p is registered. -/
theorem reachSafe_subscribers_registered_witness :
    mapContains safeState.plugins "p" = true := by
  have h1 : ReachSafe (applyStep Daemon.init (.openConn "c1")) :=
    ReachSafe.step Daemon.init (.openConn "c1") ReachSafe.init trivial trivial
  have hok : registerOk (applyStep Daemon.init (.openConn "c1"))
      (.request (.register pluginP) "c1" 0) := by
    intro c hc
    by_cases h : ("c1" : String) = c
    · exact absurd h.symm hc
    · simp [applyStep, Daemon.add_connection, Daemon.init, Daemon.boundTo,
        mapGet, mapInsert, h]
  have h2 : ReachSafe (applyStep (applyStep Daemon.init (.openConn "c1"))
      (.request (.register pluginP) "c1" 0)) :=
    ReachSafe.step _ _ h1 hok trivial
  have h3 : ReachSafe safeState :=
    ReachSafe.step _ _ h2 trivial trivial
  exact reachSafe_subscribers_registered safeState h3 "p" rfl

end Pandemic
